import Mathlib

/-!
Shallow embedding of the chain-event indexer in
`src/smart-contract/api/core/events.py` (class `EventListener`), together with
the relational rows it writes (`bill_of_ladings` and `offers` tables, mirrored
from `src/smart-contract/api/models.py`, which declares the same tables and
column defaults as the model module the listener imports).

Modelling conventions:
* addresses, hashes and wallet identifiers are `Nat` (the code treats them as
  opaque keys compared for equality);
* the totals columns are stored as decimal strings in the database but every
  read converts with `int(... ) if ... else 0` and every write stores
  `str(...)`, so they are embedded as `Nat`;
* `datetime.utcnow()` timestamps are an abstract `Nat` supplied to the handler
  (`now`); an unset nullable column is `none`;
* `db.query(...).filter_by(...).first()` is `List.find?` over the row list and
  an update to that row is `updateFirst`; an insert appends to the list;
* a handler body runs in one session whose changes persist only when the body
  reaches `db.commit()`; a body that raises rolls back, leaving the store
  unchanged.
-/

namespace WillItShip

/-- Decoded result of `getTradeState()` on a BillOfLading contract.
Tuple indices in the source: [0] bolHash, [1] buyer, [2] seller,
[3] stablecoin, [4] declaredValue, [5] totalFunded, [6] totalPaid,
[7] totalRepaid, [8] settled, [9] claimsIssued, [10] fundingEnabled,
[11] nftMinted. -/
structure TradeState where
  bolHash : Nat
  buyer : Nat
  seller : Nat
  stablecoin : Nat
  declaredValue : Nat
  totalFunded : Nat
  totalPaid : Nat
  totalRepaid : Nat
  settled : Bool
  claimsIssued : Bool
  fundingEnabled : Bool
  nftMinted : Bool
deriving DecidableEq

/-- Read-only chain access used by the handlers: `getTradeState()` on the
contract deployed at a given address. -/
structure ChainView where
  getTradeState : Nat → TradeState

/-- One row of the `bill_of_ladings` table. -/
structure Aggregate where
  bolHash : Nat
  contractAddress : Nat
  buyerWallet : Nat
  sellerWallet : Nat
  declaredValue : Nat
  blNumber : String
  carrier : String
  sellerName : String
  buyerName : String
  placeOfReceipt : String
  placeOfDelivery : String
  isActive : Bool
  totalFunded : Nat
  totalPaid : Nat
  totalClaimed : Nat
  settled : Bool
  mintedAt : Option Nat
  fundingEnabledAt : Option Nat
  arrivedAt : Option Nat
  paidAt : Option Nat
  settledAt : Option Nat
deriving DecidableEq

/-- One row of the `offers` table. -/
structure OfferRow where
  bolHash : Nat
  offerId : Nat
  investor : Nat
  amount : Nat
  interestRateBps : Nat
  claimTokens : Nat
  accepted : Bool
deriving DecidableEq

/-- The relational store the listener writes to. -/
structure Store where
  aggregates : List Aggregate
  offers : List OfferRow
deriving DecidableEq

/-- Apply `f` to the first element satisfying `p`, leaving the rest alone
(the effect of mutating the row returned by `filter_by(...).first()`). -/
def updateFirst (p : α → Bool) (f : α → α) : List α → List α
  | [] => []
  | x :: xs => if p x then f x :: xs else x :: updateFirst p f xs

/-- Decoded `Created` event (address plus the event arguments the handler
reads: buyer, seller, declaredValue, blNumber, sellerName, carrierName,
buyerName, placeOfReceipt, placeOfDelivery). -/
structure CreatedEvent where
  address : Nat
  buyer : Nat
  seller : Nat
  declaredValue : Nat
  blNumber : String
  sellerName : String
  carrierName : String
  buyerName : String
  placeOfReceipt : String
  placeOfDelivery : String
deriving DecidableEq

/-- Decoded `Offer` event. -/
structure OfferEvent where
  address : Nat
  offerId : Nat
  investor : Nat
  amount : Nat
  interestRateBps : Nat
deriving DecidableEq

/-- Decoded `OfferAccepted` event. -/
structure OfferAcceptedEvent where
  address : Nat
  offerId : Nat
deriving DecidableEq

/-- The `BillOfLading(...)` row built by `_handle_created`: the hash read
from `getTradeState()`, the event arguments, `minted_at` stamped now, and the
column defaults of the model (`is_active=False`, totals `"0"`,
`settled=False`, nullable timestamps) for everything else. -/
def newAggregate (chain : ChainView) (now : Nat) (ev : CreatedEvent) :
    Aggregate :=
  { bolHash := (chain.getTradeState ev.address).bolHash
    contractAddress := ev.address
    buyerWallet := ev.buyer
    sellerWallet := ev.seller
    declaredValue := ev.declaredValue
    blNumber := ev.blNumber
    carrier := ev.carrierName
    sellerName := ev.sellerName
    buyerName := ev.buyerName
    placeOfReceipt := ev.placeOfReceipt
    placeOfDelivery := ev.placeOfDelivery
    isActive := false
    totalFunded := 0
    totalPaid := 0
    totalClaimed := 0
    settled := false
    mintedAt := some now
    fundingEnabledAt := none
    arrivedAt := none
    paidAt := none
    settledAt := none }

/-- Embeds `_handle_created`: read `bolHash` from `getTradeState()`, then
check-then-insert on that hash. -/
def handleCreated (chain : ChainView) (now : Nat) (ev : CreatedEvent)
    (s : Store) : Store :=
  let h := (chain.getTradeState ev.address).bolHash
  match s.aggregates.find? (fun b => b.bolHash == h) with
  | some _ => s
  | none =>
      { s with aggregates := s.aggregates ++ [newAggregate chain now ev] }

/-- Embeds `_handle_active`: set `is_active` and stamp `funding_enabled_at` once. -/
def handleActive (now : Nat) (address : Nat) (s : Store) : Store :=
  { s with
      aggregates := updateFirst (fun b => b.contractAddress == address)
        (fun b => { b with isActive := true,
                           fundingEnabledAt := some (b.fundingEnabledAt.getD now) })
        s.aggregates }

/-- Embeds `_handle_funded`: accumulate the event amount into `total_funded`. -/
def handleFunded (address : Nat) (amount : Nat) (s : Store) : Store :=
  { s with
      aggregates := updateFirst (fun b => b.contractAddress == address)
        (fun b => { b with totalFunded := b.totalFunded + amount })
        s.aggregates }

/-- Embeds `_handle_full`: no state change. -/
def handleFull (s : Store) : Store := s

/-- Embeds `_handle_inactive`: clear `is_active` and stamp `arrived_at` once. -/
def handleInactive (now : Nat) (address : Nat) (s : Store) : Store :=
  { s with
      aggregates := updateFirst (fun b => b.contractAddress == address)
        (fun b => { b with isActive := false,
                           arrivedAt := some (b.arrivedAt.getD now) })
        s.aggregates }

/-- Embeds `_handle_paid`: accumulate into `total_paid` and stamp `paid_at` once. -/
def handlePaid (now : Nat) (address : Nat) (amount : Nat) (s : Store) : Store :=
  { s with
      aggregates := updateFirst (fun b => b.contractAddress == address)
        (fun b => { b with totalPaid := b.totalPaid + amount,
                           paidAt := some (b.paidAt.getD now) })
        s.aggregates }

/-- Embeds `_handle_claimed`: accumulate into `total_claimed`. -/
def handleClaimed (address : Nat) (amount : Nat) (s : Store) : Store :=
  { s with
      aggregates := updateFirst (fun b => b.contractAddress == address)
        (fun b => { b with totalClaimed := b.totalClaimed + amount })
        s.aggregates }

/-- Embeds `_handle_settled` of `core/events.py`: set `settled` and stamp
`settled_at` once. -/
def handleSettled (now : Nat) (address : Nat) (s : Store) : Store :=
  { s with
      aggregates := updateFirst (fun b => b.contractAddress == address)
        (fun b => { b with settled := true,
                           settledAt := some (b.settledAt.getD now) })
        s.aggregates }

/-- The `Offer(...)` row built by `_handle_offer`: the hash read from
`getTradeState()`, the event arguments,
`claim_tokens = amount + (amount * interestRateBps) // 10000` (Python `//`
is floor division; on naturals it is `Nat` division), and `accepted=False`. -/
def newOfferRow (chain : ChainView) (ev : OfferEvent) : OfferRow :=
  { bolHash := (chain.getTradeState ev.address).bolHash
    offerId := ev.offerId
    investor := ev.investor
    amount := ev.amount
    interestRateBps := ev.interestRateBps
    claimTokens := ev.amount + ev.amount * ev.interestRateBps / 10000
    accepted := false }

/-- Embeds `_handle_offer`: check-then-insert of `newOfferRow` on the
`(bol_hash, offer_id)` natural key. -/
def handleOffer (chain : ChainView) (ev : OfferEvent) (s : Store) : Store :=
  let h := (chain.getTradeState ev.address).bolHash
  match s.offers.find? (fun o => o.bolHash == h && o.offerId == ev.offerId) with
  | some _ => s
  | none =>
      { s with offers := s.offers ++ [newOfferRow chain ev] }

/-- Embeds `_handle_offer_accepted`: mark the `(bol_hash, offer_id)` offer accepted
and overwrite the aggregate's `total_funded`/`total_paid` with the values read
from `getTradeState()` (tuple indices 5 and 6). The single `db.commit()` sits
inside the `if bol:` branch, so when no aggregate row matches the address the
session is closed uncommitted and even the offer mutation is rolled back:
the store is unchanged. -/
def handleOfferAccepted (chain : ChainView) (ev : OfferAcceptedEvent)
    (s : Store) : Store :=
  let ts := chain.getTradeState ev.address
  let h := ts.bolHash
  if (s.aggregates.find? (fun b => b.contractAddress == ev.address)).isSome then
    { aggregates :=
        updateFirst (fun b => b.contractAddress == ev.address)
          (fun b => { b with totalFunded := ts.totalFunded,
                             totalPaid := ts.totalPaid })
          s.aggregates
      offers :=
        updateFirst (fun o => o.bolHash == h && o.offerId == ev.offerId)
          (fun o => { o with accepted := true })
          s.offers }
  else s

/-- The event kinds of the `event_handlers` dispatch table in
`_process_contract_events`, in dict insertion order. -/
inductive EventName
  | created
  | active
  | offer
  | offerAccepted
  | funded
  | full
  | inactive
  | paid
  | claimed
  | settled
deriving DecidableEq

/-- Iteration order of the dispatch table. -/
def eventNames : List EventName :=
  [.created, .active, .offer, .offerAccepted, .funded, .full, .inactive,
   .paid, .claimed, .settled]

/-- One decoded log together with the arguments its handler reads. -/
inductive BolEvent
  | created (ev : CreatedEvent)
  | active (address : Nat)
  | offer (ev : OfferEvent)
  | offerAccepted (ev : OfferAcceptedEvent)
  | funded (address : Nat) (amount : Nat)
  | full (address : Nat)
  | inactive (address : Nat)
  | paid (address : Nat) (amount : Nat)
  | claimed (address : Nat) (amount : Nat)
  | settled (address : Nat)
deriving DecidableEq

/-- Dispatch one decoded event to its handler (the `event_handlers` table). -/
def applyEvent (chain : ChainView) (now : Nat) (e : BolEvent) (s : Store) :
    Store :=
  match e with
  | .created ev => handleCreated chain now ev s
  | .active a => handleActive now a s
  | .offer ev => handleOffer chain ev s
  | .offerAccepted ev => handleOfferAccepted chain ev s
  | .funded a amt => handleFunded a amt s
  | .full _ => handleFull s
  | .inactive a => handleInactive now a s
  | .paid a amt => handlePaid now a amt s
  | .claimed a amt => handleClaimed a amt s
  | .settled a => handleSettled now a s

/-- Environment of one `listen` iteration: the chain reads the iteration can
make and a fault model. `blockNumber` is `w3.eth.block_number`;
`createdLogs` is the unfiltered `get_logs` call of the discovery phase
(already decoded, decode failures dropped); `logsOf a k` is the
address+topic-filtered `get_logs` call of `_process_contract_events` for
address `a` and event kind `k` (also decoded); `handlerFails e` injects an
exception into the handler body for event `e`, which the handler's
`try/except` turns into a rollback of that one session. -/
structure ListenEnv where
  chain : ChainView
  now : Nat
  blockNumber : Except Unit Nat
  createdLogs : Nat → Nat → Except Unit (List CreatedEvent)
  logsOf : Nat → EventName → Nat → Nat → Except Unit (List BolEvent)
  handlerFails : BolEvent → Bool

/-- Run one handler under the fault model: an injected exception reaches the
`except` clause before the session's single `db.commit()`, so the rollback
leaves the store exactly as it was. -/
def runHandler (env : ListenEnv) (e : BolEvent) (s : Store) : Store :=
  if env.handlerFails e then s else applyEvent env.chain env.now e s

/-- Embeds `_process_contract_events` with `skip_created=True`: for each non-Created
kind in table order, fetch that kind's logs for the address and run the
handler on each; a `get_logs` failure for one kind is caught and only skips
that kind. -/
def processContractEvents (env : ListenEnv) (address : Nat)
    (fromBlock toBlock : Nat) (s : Store) : Store :=
  (eventNames.filter (fun k => k ≠ .created)).foldl
    (fun st k =>
      match env.logsOf address k fromBlock toBlock with
      | .error _ => st
      | .ok evs => evs.foldl (fun st e => runHandler env e st) st)
    s

/-- Embeds `_get_all_bol_addresses`: the distinct contract addresses present in the
`bill_of_ladings` table. -/
def getAllBolAddresses (s : Store) : List Nat :=
  (s.aggregates.map (fun b => b.contractAddress)).dedup

/-- Discovery phase of `_process_bol_events`: fetch all `Created` logs in the
range with no address filter, and for each one immediately run the Created
handler and record the emitting address. A `get_logs` failure here is caught:
discovery yields nothing and the iteration carries on. -/
def discoveryPhase (env : ListenEnv) (fromBlock toBlock : Nat) (s : Store) :
    Store × List Nat :=
  match env.createdLogs fromBlock toBlock with
  | .error _ => (s, [])
  | .ok evs =>
      evs.foldl
        (fun acc ev => (runHandler env (.created ev) acc.1, acc.2 ++ [ev.address]))
        (s, [])

/-- The address list of the generic pass: addresses known to the store after
discovery, extended with each newly discovered address not already present
(the `if addr not in bol_addresses: append` loop), then deduplicated
(`list(set(...))`; the Python order is arbitrary, so membership is the
modelled content). -/
def scannedAddresses (env : ListenEnv) (fromBlock toBlock : Nat) (s : Store) :
    List Nat :=
  let d := discoveryPhase env fromBlock toBlock s
  let known := getAllBolAddresses d.1
  (d.2.foldl (fun acc a => if acc.contains a then acc else acc ++ [a]) known).dedup

/-- Embeds `_process_bol_events`: discovery (which already applied the Created
handler to every discovered event), then the generic per-address pass over
the scanned addresses. -/
def processBolEvents (env : ListenEnv) (fromBlock toBlock : Nat) (s : Store) :
    Store :=
  (scannedAddresses env fromBlock toBlock s).foldl
    (fun st a => processContractEvents env a fromBlock toBlock st)
    (discoveryPhase env fromBlock toBlock s).1

/-- Poll sleep, `await asyncio.sleep(5)`, between iterations. -/
def pollInterval : Nat := 5

/-- Error sleep, `await asyncio.sleep(10)`, after an exception in the loop body. -/
def errorInterval : Nat := 10

/-- Batch bound per iteration, `min(current_block, self.last_block + 100)`. -/
def batchSize : Nat := 100

/-- Outcome of one iteration of `listen`: the cursor afterwards, the store
afterwards, the range that was handed to `_process_bol_events` (none when no
scan ran), and the sleep chosen before the next iteration. -/
structure IterResult where
  lastBlock : Nat
  store : Store
  processedRange : Option (Nat × Nat)
  sleepSecs : Nat
deriving DecidableEq

/-- One iteration of the `while True` body of `listen`: read
`w3.eth.block_number` (an exception lands in the `except` clause: cursor
untouched, error sleep); if new blocks exist, process
`[last+1, min(current, last+100)]` and advance the cursor, else just sleep. -/
def listenIteration (env : ListenEnv) (lastBlock : Nat) (s : Store) :
    IterResult :=
  match env.blockNumber with
  | .error _ => ⟨lastBlock, s, none, errorInterval⟩
  | .ok current =>
      if lastBlock < current then
        let toBlock := min current (lastBlock + batchSize)
        ⟨toBlock, processBolEvents env (lastBlock + 1) toBlock s,
         some (lastBlock + 1, toBlock), pollInterval⟩
      else ⟨lastBlock, s, none, pollInterval⟩

/-- Row-wise growth of a table: no row is deleted, and each surviving row
relates to its old value by `r`. -/
def rowsMono (r : α → α → Prop) (l l' : List α) : Prop :=
  l.length ≤ l'.length ∧ List.Forall₂ r l (l'.take l.length)


/-! ### Concrete fixtures used by the witnesses -/

/-- A trade state as `getTradeState()` would report it: hash `7`, declared
value `1000`, authoritative `totalFunded = 1050`, `totalPaid = 0`. -/
def tsA : TradeState :=
  { bolHash := 7, buyer := 2, seller := 3, stablecoin := 4,
    declaredValue := 1000, totalFunded := 1050, totalPaid := 0,
    totalRepaid := 0, settled := false, claimsIssued := false,
    fundingEnabled := false, nftMinted := false }

/-- A chain on which every address reports `tsA`. -/
def chainA : ChainView := ⟨fun _ => tsA⟩

/-- A decoded `Created` event emitted from address `5`. -/
def evCreatedA : CreatedEvent :=
  { address := 5, buyer := 2, seller := 3, declaredValue := 1000,
    blNumber := "BL-1", sellerName := "S", carrierName := "C",
    buyerName := "B", placeOfReceipt := "", placeOfDelivery := "" }

def emptyStore : Store := ⟨[], []⟩

/-- An aggregate row for hash `7` at contract address `5`, all state fields
at their column defaults. -/
def aggA : Aggregate :=
  { bolHash := 7, contractAddress := 5, buyerWallet := 2, sellerWallet := 3,
    declaredValue := 1000, blNumber := "BL-1", carrier := "C",
    sellerName := "S", buyerName := "B", placeOfReceipt := "",
    placeOfDelivery := "", isActive := false, totalFunded := 0,
    totalPaid := 0, totalClaimed := 0, settled := false, mintedAt := none,
    fundingEnabledAt := none, arrivedAt := none, paidAt := none,
    settledAt := none }

def storeA : Store := ⟨[aggA], []⟩

/-- A decoded `Offer` event: offer `1` by investor `9`, principal `1000`,
rate `500` basis points. -/
def evOfferA : OfferEvent :=
  { address := 5, offerId := 1, investor := 9, amount := 1000,
    interestRateBps := 500 }

/-- The offer row inserted for offer `1` on hash `7` (principal `1000`, rate
`500` bps, claim `1050`), not yet accepted. -/
def offerA : OfferRow :=
  { bolHash := 7, offerId := 1, investor := 9, amount := 1000,
    interestRateBps := 500, claimTokens := 1050, accepted := false }

/-- A decoded `OfferAccepted` event for offer `1` at address `5`. -/
def evAccA : OfferAcceptedEvent := { address := 5, offerId := 1 }

/-- Store holding the hash-`7` aggregate together with the pending offer. -/
def storeC1 : Store := ⟨[aggA], [offerA]⟩

/-- Per-row comparison for the monotone-totals invariant. -/
def aggTotalsLE (b b' : Aggregate) : Prop :=
  b.totalFunded ≤ b'.totalFunded ∧ b.totalPaid ≤ b'.totalPaid ∧
    b.totalClaimed ≤ b'.totalClaimed

/-- Per-row comparison for the settled flag: once set it stays set. -/
def settledLE (b b' : Aggregate) : Prop := b.settled = true → b'.settled = true


/-- An iteration environment in which the block-height read succeeds
(height `100`) but the discovery `get_logs` RPC call fails; all other log
fetches return empty batches and no handler fault is injected. -/
def envRpcCex : ListenEnv :=
  { chain := chainA
    now := 0
    blockNumber := .ok 100
    createdLogs := fun _ _ => .error ()
    logsOf := fun _ _ _ _ => .ok []
    handlerFails := fun _ => false }

/-- An iteration environment in which the block-height read itself fails. -/
def envErrA : ListenEnv :=
  { chain := chainA
    now := 0
    blockNumber := .error ()
    createdLogs := fun _ _ => .ok []
    logsOf := fun _ _ _ _ => .ok []
    handlerFails := fun _ => false }

/-- An iteration environment whose only fault is an injected handler
exception for the `Funded(5, 100)` event. -/
def envC8 : ListenEnv :=
  { chain := chainA
    now := 0
    blockNumber := .ok 10
    createdLogs := fun _ _ => .ok []
    logsOf := fun _ _ _ _ => .ok []
    handlerFails := fun x => decide (x = BolEvent.funded 5 100) }

/-- A fault-free iteration environment whose discovery scan finds exactly
the `Created` event `evCreatedA`. -/
def envC9 : ListenEnv :=
  { chain := chainA
    now := 0
    blockNumber := .ok 10
    createdLogs := fun _ _ => .ok [evCreatedA]
    logsOf := fun _ _ _ _ => .ok []
    handlerFails := fun _ => false }

/-! ### Helper lemmas about the store primitives -/

theorem length_updateFirst (p : α → Bool) (f : α → α) (l : List α) :
    (updateFirst p f l).length = l.length := by
  induction l with
  | nil => rfl
  | cons x xs ih =>
      by_cases hx : p x <;> simp [updateFirst, hx, ih]

theorem updateFirst_of_none (p : α → Bool) (f : α → α) (l : List α)
    (h : l.find? p = none) : updateFirst p f l = l := by
  induction l with
  | nil => rfl
  | cons x xs ih =>
      rw [List.find?_cons] at h
      cases hx : p x with
      | true => simp [hx] at h
      | false =>
          simp only [hx] at h
          simp [updateFirst, hx, ih h]

theorem find?_updateFirst (p : α → Bool) (f : α → α) (l : List α) (b : α)
    (h : l.find? p = some b) (hfb : p (f b) = true) :
    (updateFirst p f l).find? p = some (f b) := by
  induction l with
  | nil => simp at h
  | cons x xs ih =>
      rw [List.find?_cons] at h
      cases hx : p x with
      | true =>
          simp only [hx] at h
          cases h
          simp [updateFirst, hx, List.find?_cons, hfb]
      | false =>
          simp only [hx] at h
          simp [updateFirst, hx, List.find?_cons, ih h]

theorem find?_append_of_none (p : α → Bool) (l₁ l₂ : List α)
    (h : l₁.find? p = none) : (l₁ ++ l₂).find? p = l₂.find? p := by
  induction l₁ with
  | nil => rfl
  | cons x xs ih =>
      rw [List.find?_cons] at h
      cases hx : p x with
      | true => simp [hx] at h
      | false =>
          simp only [hx] at h
          simp [List.find?_cons, hx, ih h]

theorem rowsMono_self (r : α → α → Prop) (hr : ∀ a, r a a) (l : List α) :
    rowsMono r l l := by
  refine ⟨le_rfl, ?_⟩
  rw [List.take_length]
  exact (List.forall₂_same).2 (fun a _ => hr a)

theorem rowsMono_append (r : α → α → Prop) (hr : ∀ a, r a a)
    (l l₂ : List α) : rowsMono r l (l ++ l₂) := by
  refine ⟨by simp, ?_⟩
  rw [List.take_left]
  exact (List.forall₂_same).2 (fun a _ => hr a)

theorem rowsMono_updateFirst (r : α → α → Prop) (hr : ∀ a, r a a)
    (p : α → Bool) (f : α → α) (l : List α)
    (hf : ∀ a, l.find? p = some a → r a (f a)) :
    rowsMono r l (updateFirst p f l) := by
  refine ⟨(length_updateFirst p f l).ge, ?_⟩
  rw [List.take_of_length_le (length_updateFirst p f l).le]
  induction l with
  | nil => exact List.Forall₂.nil
  | cons x xs ih =>
      cases hx : p x with
      | true =>
          simp only [updateFirst, hx, if_true]
          exact List.Forall₂.cons
            (hf x (by rw [List.find?_cons, hx]))
            ((List.forall₂_same).2 (fun a _ => hr a))
      | false =>
          simp only [updateFirst, hx, if_false]
          exact List.Forall₂.cons (hr x)
            (ih (fun a ha => hf a (by rw [List.find?_cons, hx]; exact ha)))

/-! ### Case lemmas for the check-then-insert handlers -/

theorem handleCreated_found (chain : ChainView) (now : Nat) (ev : CreatedEvent)
    (s : Store) (b : Aggregate)
    (hf : s.aggregates.find?
      (fun x => x.bolHash == (chain.getTradeState ev.address).bolHash) = some b) :
    handleCreated chain now ev s = s := by
  simp only [handleCreated, hf]

theorem handleCreated_not_found (chain : ChainView) (now : Nat)
    (ev : CreatedEvent) (s : Store)
    (hf : s.aggregates.find?
      (fun x => x.bolHash == (chain.getTradeState ev.address).bolHash) = none) :
    handleCreated chain now ev s =
      { s with aggregates := s.aggregates ++ [newAggregate chain now ev] } := by
  simp only [handleCreated, hf]

theorem find?_hash_newAggregate (chain : ChainView) (now : Nat)
    (ev : CreatedEvent) (l : List Aggregate)
    (hf : l.find?
      (fun x => x.bolHash == (chain.getTradeState ev.address).bolHash) = none) :
    (l ++ [newAggregate chain now ev]).find?
      (fun x => x.bolHash == (chain.getTradeState ev.address).bolHash)
      = some (newAggregate chain now ev) := by
  rw [find?_append_of_none _ _ _ hf]
  simp [List.find?_cons, newAggregate]

theorem handleOffer_found (chain : ChainView) (ev : OfferEvent) (s : Store)
    (o : OfferRow)
    (hf : s.offers.find?
      (fun o => o.bolHash == (chain.getTradeState ev.address).bolHash
        && o.offerId == ev.offerId) = some o) :
    handleOffer chain ev s = s := by
  simp only [handleOffer, hf]

theorem handleOffer_not_found (chain : ChainView) (ev : OfferEvent) (s : Store)
    (hf : s.offers.find?
      (fun o => o.bolHash == (chain.getTradeState ev.address).bolHash
        && o.offerId == ev.offerId) = none) :
    handleOffer chain ev s =
      { s with offers := s.offers ++ [newOfferRow chain ev] } := by
  simp only [handleOffer, hf]

/-! ### Claims -/

/-- C2: the Creation handler is idempotent via natural-key check-then-insert:
applying the same decoded Creation event twice yields the state of applying
it once; re-delivery for an already-known hash leaves the store unchanged;
and delivering the identical Creation log twice starting from a store that
does not know the hash leaves exactly one aggregate row for that hash. -/
theorem created_handler_idempotent (chain : ChainView) (ev : CreatedEvent)
    (s : Store) :
    (∀ t u : Nat,
      handleCreated chain u ev (handleCreated chain t ev s)
        = handleCreated chain t ev s) ∧
    (∀ (now : Nat) (b : Aggregate),
      s.aggregates.find?
          (fun x => x.bolHash == (chain.getTradeState ev.address).bolHash)
        = some b →
      handleCreated chain now ev s = s) ∧
    (∀ t u : Nat,
      s.aggregates.countP
          (fun x => x.bolHash == (chain.getTradeState ev.address).bolHash) = 0 →
      (handleCreated chain u ev (handleCreated chain t ev s)).aggregates.countP
          (fun x => x.bolHash == (chain.getTradeState ev.address).bolHash) = 1) := by
  have once : ∀ t u : Nat,
      handleCreated chain u ev (handleCreated chain t ev s)
        = handleCreated chain t ev s := by
    intro t u
    cases hf : s.aggregates.find?
        (fun x => x.bolHash == (chain.getTradeState ev.address).bolHash) with
    | none =>
        rw [handleCreated_not_found chain t ev s hf]
        exact handleCreated_found chain u ev _ _
          (find?_hash_newAggregate chain t ev s.aggregates hf)
    | some b =>
        rw [handleCreated_found chain t ev s b hf]
        exact handleCreated_found chain u ev s b hf
  refine ⟨once, fun now b hf => handleCreated_found chain now ev s b hf, ?_⟩
  intro t u h0
  have hall : ∀ x ∈ s.aggregates,
      ¬ (x.bolHash == (chain.getTradeState ev.address).bolHash) = true :=
    List.countP_eq_zero.1 h0
  have hf : s.aggregates.find?
      (fun x => x.bolHash == (chain.getTradeState ev.address).bolHash) = none :=
    List.find?_eq_none.2 hall
  rw [once t u, handleCreated_not_found chain t ev s hf]
  simp only [List.countP_append, h0]
  simp [List.countP_cons, newAggregate]

/-- Witness for C2 at a concrete input: starting from the empty store, the
double-delivered `Created` log for hash `7` yields the same store as a single
delivery, and exactly one aggregate row for hash `7` exists afterward. -/
theorem created_handler_idempotent_witness :
    (emptyStore.aggregates.countP (fun x => x.bolHash == 7) = 0) ∧
    handleCreated chainA 1 evCreatedA (handleCreated chainA 0 evCreatedA emptyStore)
      = handleCreated chainA 0 evCreatedA emptyStore ∧
    (handleCreated chainA 1 evCreatedA
        (handleCreated chainA 0 evCreatedA emptyStore)).aggregates.countP
      (fun x => x.bolHash == 7) = 1 :=
  ⟨by decide,
   (created_handler_idempotent chainA evCreatedA emptyStore).1 0 1,
   (created_handler_idempotent chainA evCreatedA emptyStore).2.2 0 1 (by decide)⟩

/-- C3: `_handle_offer` inserts, when the `(hash, offer id)` natural key is
absent, exactly the row whose claim amount is
`amount + amount * rateBps / 10000` in exact `Nat` arithmetic and whose
`accepted` flag is `false`; when the key is present it inserts nothing. -/
theorem offer_claim_amount (chain : ChainView) (ev : OfferEvent) (s : Store) :
    (s.offers.find?
        (fun o => o.bolHash == (chain.getTradeState ev.address).bolHash
          && o.offerId == ev.offerId) = none →
      handleOffer chain ev s
        = { s with offers := s.offers ++ [newOfferRow chain ev] }) ∧
    (newOfferRow chain ev).claimTokens
      = ev.amount + ev.amount * ev.interestRateBps / 10000 ∧
    (newOfferRow chain ev).accepted = false ∧
    (∀ o, s.offers.find?
        (fun o => o.bolHash == (chain.getTradeState ev.address).bolHash
          && o.offerId == ev.offerId) = some o →
      handleOffer chain ev s = s) :=
  ⟨fun hf => handleOffer_not_found chain ev s hf, rfl, rfl,
   fun o hf => handleOffer_found chain ev s o hf⟩

/-- Witness for C3 at a concrete input: `OfferCreated(amount=1000,
rateBps=500)` against a store without that offer inserts one row with
`claimAmount = 1050` and `accepted = false`. -/
theorem offer_claim_amount_witness :
    (storeA.offers.find?
        (fun o => o.bolHash == 7 && o.offerId == 1) = none) ∧
    handleOffer chainA evOfferA storeA
      = { storeA with offers := storeA.offers ++ [newOfferRow chainA evOfferA] } ∧
    (newOfferRow chainA evOfferA).claimTokens = 1050 ∧
    (newOfferRow chainA evOfferA).accepted = false :=
  ⟨rfl,
   (offer_claim_amount chainA evOfferA storeA).1 rfl,
   by have h := (offer_claim_amount chainA evOfferA storeA).2.1; simpa using h,
   (offer_claim_amount chainA evOfferA storeA).2.2.1⟩

/-- C4: `_handle_funded` adds the event amount to the matched aggregate's
`total_funded`, whatever its prior value. -/
theorem funded_handler_accumulates (address amount : Nat) (s : Store)
    (b : Aggregate)
    (hb : s.aggregates.find? (fun x => x.contractAddress == address) = some b) :
    (handleFunded address amount s).aggregates.find?
        (fun x => x.contractAddress == address)
      = some { b with totalFunded := b.totalFunded + amount } := by
  have hpb : (b.contractAddress == address) = true := by
    simpa using List.find?_some hb
  exact find?_updateFirst _ _ _ _ hb (by simpa using hpb)

/-- Witness for C4 at a concrete input: three distinct `Funded` events of
100, 200 and 300 against an aggregate starting at `total_funded = 0` leave
`total_funded = 600`. -/
theorem funded_handler_accumulates_witness :
    ((handleFunded 5 200 (handleFunded 5 100 storeA)).aggregates.find?
        (fun x => x.contractAddress == 5)
      = some { aggA with totalFunded := 300 }) ∧
    (handleFunded 5 300
        (handleFunded 5 200 (handleFunded 5 100 storeA))).aggregates.find?
        (fun x => x.contractAddress == 5)
      = some { aggA with totalFunded := 600 } :=
  ⟨by decide,
   by
    have h := funded_handler_accumulates 5 300
      (handleFunded 5 200 (handleFunded 5 100 storeA))
      { aggA with totalFunded := 300 } (by decide)
    simpa using h⟩

/-- C1: `_handle_offer_accepted` overwrites — it does not accumulate — the
matched aggregate's `total_funded` and `total_paid` with the authoritative
values read from the contract's trade state (tuple indices 5 and 6),
whatever the prior stored values were, and marks the referenced offer row
accepted when that row exists. -/
theorem offer_accepted_overwrites (chain : ChainView) (ev : OfferAcceptedEvent)
    (s : Store) (b : Aggregate)
    (hb : s.aggregates.find? (fun x => x.contractAddress == ev.address) = some b) :
    ((handleOfferAccepted chain ev s).aggregates.find?
        (fun x => x.contractAddress == ev.address)
      = some { b with totalFunded := (chain.getTradeState ev.address).totalFunded,
                      totalPaid := (chain.getTradeState ev.address).totalPaid }) ∧
    (∀ o, s.offers.find?
        (fun o => o.bolHash == (chain.getTradeState ev.address).bolHash
          && o.offerId == ev.offerId) = some o →
      (handleOfferAccepted chain ev s).offers.find?
        (fun o => o.bolHash == (chain.getTradeState ev.address).bolHash
          && o.offerId == ev.offerId)
        = some { o with accepted := true }) := by
  have hpb : (b.contractAddress == ev.address) = true := by
    simpa using List.find?_some hb
  constructor
  · simp only [handleOfferAccepted, hb, Option.isSome_some, if_true]
    exact find?_updateFirst _ _ _ _ hb (by simpa using hpb)
  · intro o ho
    simp only [handleOfferAccepted, hb, Option.isSome_some, if_true]
    have hqo : ((o.bolHash == (chain.getTradeState ev.address).bolHash
        && o.offerId == ev.offerId)) = true := by
      simpa using List.find?_some ho
    exact find?_updateFirst _ _ _ _ ho (by simpa using hqo)

/-- Witness for C1 at the spec's drift-correction input: seed
`total_funded = 50` by a stray accumulation, then apply `OfferAccepted` whose
authoritative read reports `totalFunded = 1050`; the result is exactly
`1050`, not `1100`, and the offer is marked accepted. -/
theorem offer_accepted_overwrites_witness :
    ((handleFunded 5 50 storeC1).aggregates.find?
        (fun x => x.contractAddress == 5) = some { aggA with totalFunded := 50 }) ∧
    ((handleOfferAccepted chainA evAccA (handleFunded 5 50 storeC1)).aggregates.find?
        (fun x => x.contractAddress == 5)
      = some { aggA with totalFunded := 1050, totalPaid := 0 }) ∧
    ((handleOfferAccepted chainA evAccA (handleFunded 5 50 storeC1)).offers.find?
        (fun o => o.bolHash == 7 && o.offerId == 1)
      = some { offerA with accepted := true }) ∧
    (1050 : Nat) ≠ 1100 := by
  refine ⟨by decide, ?_, ?_, by decide⟩
  · have h := (offer_accepted_overwrites chainA evAccA (handleFunded 5 50 storeC1)
      { aggA with totalFunded := 50 } (by decide)).1
    simpa using h
  · have h := (offer_accepted_overwrites chainA evAccA (handleFunded 5 50 storeC1)
      { aggA with totalFunded := 50 } (by decide)).2 offerA (by decide)
    simpa using h

theorem updateFirst_updateFirst (p : α → Bool) (f g : α → α) (l : List α)
    (hp : ∀ x, p (f x) = p x) :
    updateFirst p g (updateFirst p f l) = updateFirst p (fun x => g (f x)) l := by
  induction l with
  | nil => rfl
  | cons x xs ih =>
      cases hx : p x with
      | true => simp [updateFirst, hx, hp x]
      | false => simp [updateFirst, hx, ih]

theorem handleOffer_aggregates (chain : ChainView) (ev : OfferEvent)
    (s : Store) : (handleOffer chain ev s).aggregates = s.aggregates := by
  unfold handleOffer
  cases hf : s.offers.find?
      (fun o => o.bolHash == (chain.getTradeState ev.address).bolHash
        && o.offerId == ev.offerId) <;> simp [hf]

theorem handleOfferAccepted_none (chain : ChainView) (ev : OfferAcceptedEvent)
    (s : Store)
    (hg : s.aggregates.find? (fun x => x.contractAddress == ev.address) = none) :
    handleOfferAccepted chain ev s = s := by
  simp [handleOfferAccepted, hg]

theorem handleOfferAccepted_some (chain : ChainView) (ev : OfferAcceptedEvent)
    (s : Store) (b : Aggregate)
    (hb : s.aggregates.find? (fun x => x.contractAddress == ev.address) = some b) :
    handleOfferAccepted chain ev s =
      { aggregates :=
          updateFirst (fun x => x.contractAddress == ev.address)
            (fun x => { x with
              totalFunded := (chain.getTradeState ev.address).totalFunded,
              totalPaid := (chain.getTradeState ev.address).totalPaid })
            s.aggregates
        offers :=
          updateFirst (fun o => o.bolHash == (chain.getTradeState ev.address).bolHash
              && o.offerId == ev.offerId)
            (fun o => { o with accepted := true })
            s.offers } := by
  simp [handleOfferAccepted, hb]

theorem aggTotalsLE_refl (b : Aggregate) : aggTotalsLE b b :=
  ⟨le_rfl, le_rfl, le_rfl⟩

theorem settledLE_refl (b : Aggregate) : settledLE b b := fun h => h

/-- C6: the `settled` flag transitions false→true exactly once and never
back: `_handle_settled` is idempotent (a second delivery, at any later time,
changes nothing), it sets `settled` and stamps `settled_at` only if unset,
and no handler ever resets a row's `settled` flag from true to false. -/
theorem settled_write_once (chain : ChainView) (t : Nat)
    (evC : CreatedEvent) (evO : OfferEvent) (evA : OfferAcceptedEvent)
    (address amount : Nat) (s : Store) :
    (∀ now now' : Nat,
      handleSettled now' address (handleSettled now address s)
        = handleSettled now address s) ∧
    (∀ (now : Nat) (b : Aggregate),
      s.aggregates.find? (fun x => x.contractAddress == address) = some b →
      (handleSettled now address s).aggregates.find?
          (fun x => x.contractAddress == address)
        = some { b with settled := true,
                        settledAt := some (b.settledAt.getD now) }) ∧
    rowsMono settledLE s.aggregates (handleCreated chain t evC s).aggregates ∧
    rowsMono settledLE s.aggregates (handleActive t address s).aggregates ∧
    rowsMono settledLE s.aggregates (handleOffer chain evO s).aggregates ∧
    rowsMono settledLE s.aggregates (handleOfferAccepted chain evA s).aggregates ∧
    rowsMono settledLE s.aggregates (handleFunded address amount s).aggregates ∧
    rowsMono settledLE s.aggregates (handleFull s).aggregates ∧
    rowsMono settledLE s.aggregates (handleInactive t address s).aggregates ∧
    rowsMono settledLE s.aggregates (handlePaid t address amount s).aggregates ∧
    rowsMono settledLE s.aggregates (handleClaimed address amount s).aggregates ∧
    rowsMono settledLE s.aggregates (handleSettled t address s).aggregates := by
  refine ⟨?_, ?_, ?_, ?_, ?_, ?_, ?_, ?_, ?_, ?_, ?_, ?_⟩
  · intro now now'
    have hcomp := updateFirst_updateFirst
      (fun x : Aggregate => x.contractAddress == address)
      (fun x => { x with settled := true, settledAt := some (x.settledAt.getD now) })
      (fun x => { x with settled := true, settledAt := some (x.settledAt.getD now') })
      s.aggregates (fun _ => rfl)
    simp only [handleSettled]
    rw [hcomp]
    exact rfl
  · intro now b hb
    have hpb : (b.contractAddress == address) = true := by
      simpa using List.find?_some hb
    exact find?_updateFirst _ _ _ _ hb (by simpa using hpb)
  · cases hf : s.aggregates.find?
        (fun x => x.bolHash == (chain.getTradeState evC.address).bolHash) with
    | some b =>
        rw [handleCreated_found chain t evC s b hf]
        exact rowsMono_self _ settledLE_refl _
    | none =>
        rw [handleCreated_not_found chain t evC s hf]
        exact rowsMono_append _ settledLE_refl _ _
  · exact rowsMono_updateFirst _ settledLE_refl _ _ _ (fun a _ => fun h => h)
  · rw [handleOffer_aggregates]
    exact rowsMono_self _ settledLE_refl _
  · cases hg : s.aggregates.find? (fun x => x.contractAddress == evA.address) with
    | none =>
        rw [handleOfferAccepted_none chain evA s hg]
        exact rowsMono_self _ settledLE_refl _
    | some b =>
        rw [handleOfferAccepted_some chain evA s b hg]
        exact rowsMono_updateFirst _ settledLE_refl _ _ _ (fun a _ => fun h => h)
  · exact rowsMono_updateFirst _ settledLE_refl _ _ _ (fun a _ => fun h => h)
  · exact rowsMono_self _ settledLE_refl _
  · exact rowsMono_updateFirst _ settledLE_refl _ _ _ (fun a _ => fun h => h)
  · exact rowsMono_updateFirst _ settledLE_refl _ _ _ (fun a _ => fun h => h)
  · exact rowsMono_updateFirst _ settledLE_refl _ _ _ (fun a _ => fun h => h)
  · exact rowsMono_updateFirst _ settledLE_refl _ _ _ (fun a _ => fun _ => rfl)

/-- Witness for C6 at a concrete input: a second `Settled` delivery at a
later time is a no-op, the first delivery stamps `settled_at` with its own
time, and the `settled` flag survives the handler run. -/
theorem settled_write_once_witness :
    handleSettled 2 5 (handleSettled 1 5 storeC1) = handleSettled 1 5 storeC1 ∧
    ((handleSettled 1 5 storeC1).aggregates.find?
        (fun x => x.contractAddress == 5)
      = some { aggA with settled := true, settledAt := some 1 }) ∧
    rowsMono settledLE storeC1.aggregates
      (handleSettled 1 5 storeC1).aggregates := by
  refine ⟨(settled_write_once chainA 1 evCreatedA evOfferA evAccA 5 100 storeC1).1 1 2,
    ?_,
    (settled_write_once chainA 1 evCreatedA evOfferA evAccA 5 100
        storeC1).2.2.2.2.2.2.2.2.2.2.2⟩
  have h := (settled_write_once chainA 1 evCreatedA evOfferA evAccA 5 100
      storeC1).2.1 1 aggA (by decide)
  simpa using h

/-- C5 counterexample: with the authoritative trade state reporting
`totalFunded = 1050`, an aggregate whose stored `total_funded` has drifted to
`2000` is overwritten down to `1050` by `_handle_offer_accepted` — a handler
application under which a stored total strictly decreases, so the claim that
the totals never decrease under every handler application is false. -/
theorem totals_never_decrease_cex :
    ((handleFunded 5 2000 storeC1).aggregates.map (fun b => b.totalFunded)
      = [2000]) ∧
    ((handleOfferAccepted chainA evAccA
        (handleFunded 5 2000 storeC1)).aggregates.map (fun b => b.totalFunded)
      = [1050]) ∧
    ¬ (2000 : Nat) ≤ 1050 := by decide

/-- C5 amended: the stored totals `total_funded`, `total_paid`,
`total_claimed` never decrease (and no row is lost) under Creation, Active,
Offer, Funded, Full, Inactive, Paid, Claimed and Settled; under
OfferAccepted they never decrease provided the authoritative on-chain read
is at least the stored totals of the matched row — without that proviso the
overwrite can decrease them, as the counterexample shows. -/
theorem totals_never_decrease_amended (chain : ChainView) (t : Nat)
    (evC : CreatedEvent) (evO : OfferEvent) (evA : OfferAcceptedEvent)
    (address amount : Nat) (s : Store) (bA : Aggregate)
    (hbA : s.aggregates.find? (fun x => x.contractAddress == evA.address)
      = some bA)
    (hleF : bA.totalFunded ≤ (chain.getTradeState evA.address).totalFunded)
    (hleP : bA.totalPaid ≤ (chain.getTradeState evA.address).totalPaid) :
    rowsMono aggTotalsLE s.aggregates (handleCreated chain t evC s).aggregates ∧
    rowsMono aggTotalsLE s.aggregates (handleActive t address s).aggregates ∧
    rowsMono aggTotalsLE s.aggregates (handleOffer chain evO s).aggregates ∧
    rowsMono aggTotalsLE s.aggregates (handleFunded address amount s).aggregates ∧
    rowsMono aggTotalsLE s.aggregates (handleFull s).aggregates ∧
    rowsMono aggTotalsLE s.aggregates (handleInactive t address s).aggregates ∧
    rowsMono aggTotalsLE s.aggregates (handlePaid t address amount s).aggregates ∧
    rowsMono aggTotalsLE s.aggregates (handleClaimed address amount s).aggregates ∧
    rowsMono aggTotalsLE s.aggregates (handleSettled t address s).aggregates ∧
    rowsMono aggTotalsLE s.aggregates
      (handleOfferAccepted chain evA s).aggregates := by
  refine ⟨?_, ?_, ?_, ?_, ?_, ?_, ?_, ?_, ?_, ?_⟩
  · cases hf : s.aggregates.find?
        (fun x => x.bolHash == (chain.getTradeState evC.address).bolHash) with
    | some b =>
        rw [handleCreated_found chain t evC s b hf]
        exact rowsMono_self _ aggTotalsLE_refl _
    | none =>
        rw [handleCreated_not_found chain t evC s hf]
        exact rowsMono_append _ aggTotalsLE_refl _ _
  · exact rowsMono_updateFirst _ aggTotalsLE_refl _ _ _
      (fun a _ => ⟨le_rfl, le_rfl, le_rfl⟩)
  · rw [handleOffer_aggregates]
    exact rowsMono_self _ aggTotalsLE_refl _
  · exact rowsMono_updateFirst _ aggTotalsLE_refl _ _ _
      (fun a _ => ⟨Nat.le_add_right _ _, le_rfl, le_rfl⟩)
  · exact rowsMono_self _ aggTotalsLE_refl _
  · exact rowsMono_updateFirst _ aggTotalsLE_refl _ _ _
      (fun a _ => ⟨le_rfl, le_rfl, le_rfl⟩)
  · exact rowsMono_updateFirst _ aggTotalsLE_refl _ _ _
      (fun a _ => ⟨le_rfl, Nat.le_add_right _ _, le_rfl⟩)
  · exact rowsMono_updateFirst _ aggTotalsLE_refl _ _ _
      (fun a _ => ⟨le_rfl, le_rfl, Nat.le_add_right _ _⟩)
  · exact rowsMono_updateFirst _ aggTotalsLE_refl _ _ _
      (fun a _ => ⟨le_rfl, le_rfl, le_rfl⟩)
  · rw [handleOfferAccepted_some chain evA s bA hbA]
    refine rowsMono_updateFirst _ aggTotalsLE_refl _ _ _ (fun a ha => ?_)
    rw [hbA] at ha
    injection ha with h
    subst h
    exact ⟨hleF, hleP, le_rfl⟩

/-- Witness for C5 (amended) at a concrete input: with the stored totals
(0, 0) below the authoritative read (1050, 0), both a `Funded` accumulation
and the `OfferAccepted` overwrite are row-wise monotone. -/
theorem totals_never_decrease_amended_witness :
    rowsMono aggTotalsLE storeC1.aggregates
      (handleFunded 5 100 storeC1).aggregates ∧
    rowsMono aggTotalsLE storeC1.aggregates
      (handleOfferAccepted chainA evAccA storeC1).aggregates :=
  ⟨(totals_never_decrease_amended chainA 1 evCreatedA evOfferA evAccA 5 100
      storeC1 aggA (by decide) (by decide) (by decide)).2.2.2.1,
   (totals_never_decrease_amended chainA 1 evCreatedA evOfferA evAccA 5 100
      storeC1 aggA (by decide) (by decide) (by decide)).2.2.2.2.2.2.2.2.2⟩

/-- C10: every per-address handler (`Active`, `Inactive`, `Funded`, `Paid`,
`Claimed`, `Settled`) applied to an address for which no aggregate row exists
completes and leaves the entire store unchanged: `filter_by(...).first()`
returns nothing, the `if bol:` guard skips every mutation, and the event is
silently dropped. -/
theorem unknown_address_event_dropped (now address amount : Nat) (s : Store)
    (h : ∀ b ∈ s.aggregates, ¬ b.contractAddress = address) :
    handleActive now address s = s ∧
    handleInactive now address s = s ∧
    handleFunded address amount s = s ∧
    handlePaid now address amount s = s ∧
    handleClaimed address amount s = s ∧
    handleSettled now address s = s := by
  have hnone : s.aggregates.find? (fun x => x.contractAddress == address) = none :=
    List.find?_eq_none.2 (fun b hb => by simpa using h b hb)
  have hupd : ∀ f, updateFirst (fun x : Aggregate => x.contractAddress == address)
      f s.aggregates = s.aggregates :=
    fun f => updateFirst_of_none _ f _ hnone
  refine ⟨?_, ?_, ?_, ?_, ?_, ?_⟩ <;>
    simp only [handleActive, handleInactive, handleFunded, handlePaid,
      handleClaimed, handleSettled, hupd]

/-- Witness for C10 at a concrete input: address `99` has no aggregate row
in `storeC1`, and all six handlers leave the store untouched. -/
theorem unknown_address_event_dropped_witness :
    handleActive 1 99 storeC1 = storeC1 ∧
    handleInactive 1 99 storeC1 = storeC1 ∧
    handleFunded 99 100 storeC1 = storeC1 ∧
    handlePaid 1 99 100 storeC1 = storeC1 ∧
    handleClaimed 99 100 storeC1 = storeC1 ∧
    handleSettled 1 99 storeC1 = storeC1 :=
  unknown_address_event_dropped 1 99 100 storeC1 (by decide)

/-- C7 counterexample: in `envRpcCex` the discovery-phase `get_logs` RPC call
for the scanned range `[1, 100]` fails, yet the iteration is not aborted: it
runs to completion and advances the cursor from `0` to `100` with the normal
poll sleep — so a transient RPC failure during an iteration does not always
abort it with the cursor unadvanced. -/
theorem rpc_failure_aborts_iteration_cex :
    envRpcCex.createdLogs 1 100 = .error () ∧
    listenIteration envRpcCex 0 emptyStore
      = ⟨100, emptyStore, some (1, 100), pollInterval⟩ ∧
    ¬ (100 : Nat) = 0 := by
  refine ⟨rfl, ?_, by decide⟩
  decide

/-- C7 amended: an RPC failure that reaches the `listen` loop body (the
block-height read) aborts the iteration with the cursor and store untouched
and a backoff strictly longer than the poll interval, and a later successful
iteration rescans exactly the same range starting at `last + 1`; log-fetch
RPC failures inside the iteration, by contrast, are caught locally (see the
counterexample) and the cursor still advances. -/
theorem rpc_failure_aborted_iteration_amended (env env2 : ListenEnv)
    (last c : Nat) (s : Store)
    (h : env.blockNumber = .error ()) (h2 : env2.blockNumber = .ok c)
    (hc : last < c) :
    listenIteration env last s = ⟨last, s, none, errorInterval⟩ ∧
    pollInterval < errorInterval ∧
    (listenIteration env2 last ((listenIteration env last s).store)).processedRange
      = some (last + 1, min c (last + batchSize)) := by
  have h1 : listenIteration env last s = ⟨last, s, none, errorInterval⟩ := by
    simp [listenIteration, h]
  refine ⟨h1, by decide, ?_⟩
  rw [h1]
  simp [listenIteration, h2, hc]

/-- Witness for C7 (amended) at a concrete input: a failing height read at
cursor `0` leaves everything in place, and the retry under a working
environment processes the range `[1, 100]`. -/
theorem rpc_failure_aborted_iteration_amended_witness :
    listenIteration envErrA 0 storeC1 = ⟨0, storeC1, none, errorInterval⟩ ∧
    pollInterval < errorInterval ∧
    (listenIteration envRpcCex 0 ((listenIteration envErrA 0 storeC1).store)).processedRange
      = some (1, min 100 (0 + batchSize)) :=
  rpc_failure_aborted_iteration_amended envErrA envRpcCex 0 100 storeC1
    rfl rfl (by decide)

theorem foldl_runHandler_no_fail (env : ListenEnv) (l : List BolEvent)
    (s : Store) (h : ∀ x ∈ l, env.handlerFails x = false) :
    l.foldl (fun st x => runHandler env x st) s
      = l.foldl (fun st x => applyEvent env.chain env.now x st) s := by
  induction l generalizing s with
  | nil => rfl
  | cons x xs ih =>
      simp only [List.foldl_cons]
      rw [show runHandler env x s = applyEvent env.chain env.now x s from by
        simp [runHandler, h x (List.mem_cons_self x xs)]]
      exact ih _ (fun y hy => h y (List.mem_cons_of_mem x hy))

/-- C8: a handler failure is atomic and local. With a fault injected for
exactly the event `e`: running `e`'s handler rolls its transaction back and
leaves the store unchanged; a batch containing `e` once produces exactly the
state of applying every other event's handler in order; and the iteration
still advances the cursor past the scanned range, independent of any handler
outcome — so the failed event's effect is dropped for good. -/
theorem handler_failure_atomic_local (env : ListenEnv) (e : BolEvent)
    (hf : ∀ x, env.handlerFails x = decide (x = e))
    (l1 l2 : List BolEvent) (s : Store) (h1 : e ∉ l1) (h2 : e ∉ l2)
    (c last : Nat) (hbn : env.blockNumber = .ok c) (hlt : last < c) :
    runHandler env e s = s ∧
    (l1 ++ e :: l2).foldl (fun st x => runHandler env x st) s
      = l2.foldl (fun st x => applyEvent env.chain env.now x st)
          (l1.foldl (fun st x => applyEvent env.chain env.now x st) s) ∧
    (listenIteration env last s).lastBlock = min c (last + batchSize) := by
  have hno : ∀ (l : List BolEvent), e ∉ l → ∀ x ∈ l, env.handlerFails x = false := by
    intro l hl x hx
    rw [hf x]
    simp only [decide_eq_false_iff_not]
    exact fun hxe => hl (hxe ▸ hx)
  have he : runHandler env e s = s := by simp [runHandler, hf e]
  refine ⟨he, ?_, ?_⟩
  · rw [List.foldl_append, foldl_runHandler_no_fail env l1 s (hno l1 h1)]
    simp only [List.foldl_cons]
    rw [show ∀ t, runHandler env e t = t from fun t => by simp [runHandler, hf e]]
    exact foldl_runHandler_no_fail env l2 _ (hno l2 h2)
  · simp [listenIteration, hbn, hlt]

/-- Witness for C8 at a concrete input: with a fault on `Funded(5, 100)`
only, the faulty event alone is rolled back, the surrounding batch
`[Funded(5, 1); Funded(5, 100); Funded(5, 2)]` applies exactly the other two
events, and the cursor still advances to block `10`. -/
theorem handler_failure_atomic_local_witness :
    runHandler envC8 (BolEvent.funded 5 100) storeC1 = storeC1 ∧
    ([BolEvent.funded 5 1] ++ BolEvent.funded 5 100 :: [BolEvent.funded 5 2]).foldl
        (fun st x => runHandler envC8 x st) storeC1
      = [BolEvent.funded 5 2].foldl
          (fun st x => applyEvent envC8.chain envC8.now x st)
          ([BolEvent.funded 5 1].foldl
            (fun st x => applyEvent envC8.chain envC8.now x st) storeC1) ∧
    (listenIteration envC8 0 storeC1).lastBlock = min 10 (0 + batchSize) :=
  handler_failure_atomic_local envC8 (BolEvent.funded 5 100) (fun _ => rfl)
    [BolEvent.funded 5 1] [BolEvent.funded 5 2] storeC1
    (by decide) (by decide) 10 0 rfl (by decide)

theorem foldl_pair_fst (g : Store → CreatedEvent → Store)
    (evs : List CreatedEvent) (s : Store) (d : List Nat) :
    (evs.foldl (fun acc ev => (g acc.1 ev, acc.2 ++ [ev.address])) (s, d)).1
      = evs.foldl g s := by
  induction evs generalizing s d with
  | nil => rfl
  | cons ev rest ih => simpa using ih (g s ev) (d ++ [ev.address])

theorem foldl_pair_snd (g : Store → CreatedEvent → Store)
    (evs : List CreatedEvent) (s : Store) (d : List Nat) :
    (evs.foldl (fun acc ev => (g acc.1 ev, acc.2 ++ [ev.address])) (s, d)).2
      = d ++ evs.map (fun ev => ev.address) := by
  induction evs generalizing s d with
  | nil => simp
  | cons ev rest ih =>
      simp only [List.foldl_cons, List.map_cons]
      rw [ih (g s ev) (d ++ [ev.address])]
      simp

theorem mem_foldl_insertMissing_of_mem_acc (a : Nat) (l acc : List Nat)
    (h : a ∈ acc) :
    a ∈ l.foldl (fun acc x => if acc.contains x then acc else acc ++ [x]) acc := by
  induction l generalizing acc with
  | nil => exact h
  | cons x xs ih =>
      simp only [List.foldl_cons]
      by_cases hx : acc.contains x
      · rw [if_pos hx]; exact ih acc h
      · rw [if_neg hx]
        exact ih _ (List.mem_append_left _ h)

theorem mem_foldl_insertMissing (a : Nat) (l : List Nat) :
    ∀ acc : List Nat, a ∈ l →
      a ∈ l.foldl (fun acc x => if acc.contains x then acc else acc ++ [x]) acc := by
  induction l with
  | nil => intro acc h; simp at h
  | cons x xs ih =>
      intro acc h
      simp only [List.foldl_cons]
      rcases List.mem_cons.1 h with rfl | hmem
      · by_cases hx : acc.contains a
        · rw [if_pos hx]
          exact mem_foldl_insertMissing_of_mem_acc a xs acc (by simpa using hx)
        · rw [if_neg hx]
          exact mem_foldl_insertMissing_of_mem_acc a xs _
            (List.mem_append_right _ (List.mem_singleton.2 rfl))
      · by_cases hx : acc.contains x
        · rw [if_pos hx]; exact ih acc hmem
        · rw [if_neg hx]; exact ih _ hmem

/-- C9: same-window discovery guarantee. When the discovery `get_logs` call
returns the creation events of the range, the discovery phase applies the
Created handler to every one of them in order (so to each found event
immediately), records their emitting addresses, and every such address is in
the address set whose remaining event kinds the same iteration fetches and
handles; furthermore the generic pass starts from the post-discovery store. -/
theorem discovery_same_window (env : ListenEnv) (f t : Nat) (s : Store)
    (evs : List CreatedEvent) (e : CreatedEvent)
    (h : env.createdLogs f t = .ok evs) (he : e ∈ evs) :
    (discoveryPhase env f t s).1
      = evs.foldl (fun st ev => runHandler env (.created ev) st) s ∧
    e.address ∈ scannedAddresses env f t s ∧
    processBolEvents env f t s
      = (scannedAddresses env f t s).foldl
          (fun st a => processContractEvents env a f t st)
          (evs.foldl (fun st ev => runHandler env (.created ev) st) s) := by
  have hfst : (discoveryPhase env f t s).1
      = evs.foldl (fun st ev => runHandler env (.created ev) st) s := by
    simp only [discoveryPhase, h]
    exact foldl_pair_fst (fun st ev => runHandler env (.created ev) st) evs s []
  have hsnd : (discoveryPhase env f t s).2
      = evs.map (fun ev => ev.address) := by
    simp only [discoveryPhase, h]
    simpa using foldl_pair_snd (fun st ev => runHandler env (.created ev) st) evs s []
  refine ⟨hfst, ?_, ?_⟩
  · unfold scannedAddresses
    rw [List.mem_dedup]
    exact mem_foldl_insertMissing e.address _ _
      (by rw [hsnd]; exact List.mem_map_of_mem _ he)
  · unfold processBolEvents
    rw [hfst]

/-- Witness for C9 at a concrete input: with `evCreatedA` (emitted from
address `5`) the only creation event of the range, discovery applies the
Created handler to it and address `5` is scanned by the generic pass of the
same iteration. -/
theorem discovery_same_window_witness :
    (discoveryPhase envC9 1 10 emptyStore).1
      = [evCreatedA].foldl (fun st ev => runHandler envC9 (.created ev) st)
          emptyStore ∧
    (5 : Nat) ∈ scannedAddresses envC9 1 10 emptyStore ∧
    processBolEvents envC9 1 10 emptyStore
      = (scannedAddresses envC9 1 10 emptyStore).foldl
          (fun st a => processContractEvents envC9 a 1 10 st)
          ([evCreatedA].foldl (fun st ev => runHandler envC9 (.created ev) st)
            emptyStore) :=
  discovery_same_window envC9 1 10 emptyStore [evCreatedA] evCreatedA
    rfl (List.mem_singleton.2 rfl)

end WillItShip
